import Mathlib

/-!
Verification of the RTM (Realtime Math) VQM transform algebra and the
3x4 affine matrix operations, as a shallow embedding over the exact
rationals. Each RTM double-precision value is modelled as a rational
number; floating-point "within threshold" agreement between two exact
polynomial expressions becomes exact equality in this model. The
reciprocal-square-root scalar primitive, which the repository treats as an
external scalar-library leaf, is passed in as an explicit function
parameter where an operation consumes it.

Sources embedded:
- src/includes/rtm/experimental/vqmd.h (VQM operations)
- src/includes/rtm/experimental/impl/vqm_common.h (vqm_identity)
- src/includes/rtm/matrix3x4d.h (3x4 affine matrix operations)
- src/includes/rtm/vector4f.h (vector primitives, scalar reference paths)
- src/tools/bench/sources/bench_matrix3x3d_arg_passing.cpp (3x3 matrix_mul)
Quaternion primitives and the 3x3 matrix inverse live in headers that are
not part of the repository snapshot; those are modelled from the spec and
carry a doc comment saying so.
-/

namespace RTM

/-- A 4-wide vector of double-precision lanes, modelled as exact rationals.
From src/includes/rtm/vector4f.h (scalar reference layout, identical for
the float64 variant). -/
@[ext]
structure Vector4 where
  x : ℚ
  y : ℚ
  z : ℚ
  w : ℚ
deriving DecidableEq, Repr

/-- A quaternion stored as four lanes x, y, z, w. -/
@[ext]
structure Quat where
  x : ℚ
  y : ℚ
  z : ℚ
  w : ℚ
deriving DecidableEq, Repr

/-- vector_set: builds a vector from four lane values. -/
def vector_set (x y z w : ℚ) : Vector4 := ⟨x, y, z, w⟩

/-- vector_zero. -/
def vector_zero : Vector4 := ⟨0, 0, 0, 0⟩

/-- vector_add: per component addition (src/includes/rtm/vector4f.h line 230). -/
def vector_add (lhs rhs : Vector4) : Vector4 :=
  ⟨lhs.x + rhs.x, lhs.y + rhs.y, lhs.z + rhs.z, lhs.w + rhs.w⟩

/-- vector_sub: per component subtraction. -/
def vector_sub (lhs rhs : Vector4) : Vector4 :=
  ⟨lhs.x - rhs.x, lhs.y - rhs.y, lhs.z - rhs.z, lhs.w - rhs.w⟩

/-- vector_mul: per component multiplication. -/
def vector_mul (lhs rhs : Vector4) : Vector4 :=
  ⟨lhs.x * rhs.x, lhs.y * rhs.y, lhs.z * rhs.z, lhs.w * rhs.w⟩

/-- vector_mul with a scalar right-hand side (the vector * scalar overload). -/
def vector_mul_s (lhs : Vector4) (rhs : ℚ) : Vector4 :=
  ⟨lhs.x * rhs, lhs.y * rhs, lhs.z * rhs, lhs.w * rhs⟩

/-- vector_neg: per component negation. -/
def vector_neg (v : Vector4) : Vector4 := ⟨-v.x, -v.y, -v.z, -v.w⟩

/-- vector_mul_add: v2 + (v0 * v1) (src/includes/rtm/vector4f.h line 624). -/
def vector_mul_add (v0 v1 v2 : Vector4) : Vector4 :=
  vector_add (vector_mul v0 v1) v2

/-- vector_dup_x: replicates the x lane (src/includes/rtm/vector4f.h line 1040). -/
def vector_dup_x (v : Vector4) : Vector4 := ⟨v.x, v.x, v.x, v.x⟩

/-- vector_dup_y. -/
def vector_dup_y (v : Vector4) : Vector4 := ⟨v.y, v.y, v.y, v.y⟩

/-- vector_dup_z. -/
def vector_dup_z (v : Vector4) : Vector4 := ⟨v.z, v.z, v.z, v.z⟩

/-- vector_set_x: replaces the x lane. Modelled from the spec: the float64
lane setters live in vector4d.h which is not part of the snapshot; the
semantics (replace one lane, keep the rest) is fixed by the spec's
data model for Vector4. -/
def vector_set_x (v : Vector4) (s : ℚ) : Vector4 := ⟨s, v.y, v.z, v.w⟩

/-- vector_set_y. -/
def vector_set_y (v : Vector4) (s : ℚ) : Vector4 := ⟨v.x, s, v.z, v.w⟩

/-- vector_set_z. -/
def vector_set_z (v : Vector4) (s : ℚ) : Vector4 := ⟨v.x, v.y, s, v.w⟩

/-- vector_dot3: 3D dot product reduction. -/
def vector_dot3 (lhs rhs : Vector4) : ℚ :=
  lhs.x * rhs.x + lhs.y * rhs.y + lhs.z * rhs.z

/-- vector_length_squared3 (src/includes/rtm/vector4f.h line 553). -/
def vector_length_squared3 (v : Vector4) : ℚ := vector_dot3 v v

/-- vector_normalize3 (src/includes/rtm/vector4f.h lines 603-611): if the
squared 3D length reaches the threshold, scale the input by the reciprocal
square root of that squared length, otherwise return the fallback. The
scalar_sqrt_reciprocal primitive is an external scalar-library leaf and is
passed in as the function rsqrt. -/
def vector_normalize3 (rsqrt : ℚ → ℚ) (input fallback : Vector4) (threshold : ℚ) : Vector4 :=
  let len_sq := vector_length_squared3 input
  if threshold ≤ len_sq then vector_mul_s input (rsqrt len_sq) else fallback

/-- quat_conjugate. Modelled from the spec: quatd.h is not part of the
snapshot; the spec fixes the conjugate as the inverse of a unit quaternion,
which negates the vector part. -/
def quat_conjugate (q : Quat) : Quat := ⟨-q.x, -q.y, -q.z, q.w⟩

/-- The Hamilton product of two quaternions, the standard convention with
(0,0,0,1) as identity. Helper for the modelled quaternion operations. -/
def quat_hamilton_mul (a b : Quat) : Quat :=
  ⟨a.w * b.x + a.x * b.w + a.y * b.z - a.z * b.y,
   a.w * b.y - a.x * b.z + a.y * b.w + a.z * b.x,
   a.w * b.z + a.x * b.y - a.y * b.x + a.z * b.w,
   a.w * b.w - a.x * b.x - a.y * b.y - a.z * b.z⟩

/-- quat_mul. Modelled from the spec: quatd.h is not part of the snapshot.
The spec requires local-to-parent chaining consistent with vqm_mul, whose
source comment states the composed rotation of quat_mul(q1, q2) is the
Hamilton product q2 * q1 (apply q1 first, then q2). -/
def quat_mul (lhs rhs : Quat) : Quat := quat_hamilton_mul rhs lhs

/-- Re-interprets a vector as a pure quaternion, zeroing the w lane. -/
def quat_to_pure (v : Vector4) : Quat := ⟨v.x, v.y, v.z, 0⟩

/-- quat_mul_vector3. Modelled from the spec: quatd.h is not part of the
snapshot; the spec fixes this as the sandwich product q * v * q^-1 of the
pure-vector operand (w forced to 0) with the conjugate as inverse. -/
def quat_mul_vector3 (v : Vector4) (q : Quat) : Vector4 :=
  let p := quat_hamilton_mul (quat_hamilton_mul q (quat_to_pure v)) (quat_conjugate q)
  ⟨p.x, p.y, p.z, p.w⟩

/-- Squared magnitude of a quaternion; 1 for the unit quaternions the data
model requires of every VQM rotation. -/
def quat_norm_sq (q : Quat) : ℚ := q.x * q.x + q.y * q.y + q.z * q.z + q.w * q.w

/-- quat_identity. -/
def quat_identity : Quat := ⟨0, 0, 0, 1⟩

/-- A 3x3 matrix of three row vectors, as stored by matrix3x3d. -/
@[ext]
structure Matrix3x3 where
  x_axis : Vector4
  y_axis : Vector4
  z_axis : Vector4
deriving DecidableEq, Repr

/-- matrix_set for three rows. -/
def matrix_set3 (x_axis y_axis z_axis : Vector4) : Matrix3x3 := ⟨x_axis, y_axis, z_axis⟩

/-- matrix_identity for 3x3. -/
def matrix_identity3 : Matrix3x3 := ⟨⟨1, 0, 0, 0⟩, ⟨0, 1, 0, 0⟩, ⟨0, 0, 1, 0⟩⟩

/-- 3x3 matrix_mul, translated from
src/tools/bench/sources/bench_matrix3x3d_arg_passing.cpp lines 32-49
(row-vector convention, identical to the library implementation). -/
def matrix_mul3x3 (lhs rhs : Matrix3x3) : Matrix3x3 :=
  ⟨vector_mul_add (vector_dup_z lhs.x_axis) rhs.z_axis
     (vector_mul_add (vector_dup_y lhs.x_axis) rhs.y_axis
       (vector_mul (vector_dup_x lhs.x_axis) rhs.x_axis)),
   vector_mul_add (vector_dup_z lhs.y_axis) rhs.z_axis
     (vector_mul_add (vector_dup_y lhs.y_axis) rhs.y_axis
       (vector_mul (vector_dup_x lhs.y_axis) rhs.x_axis)),
   vector_mul_add (vector_dup_z lhs.z_axis) rhs.z_axis
     (vector_mul_add (vector_dup_y lhs.z_axis) rhs.y_axis
       (vector_mul (vector_dup_x lhs.z_axis) rhs.x_axis))⟩

/-- 3x3 matrix_mul_vector3. Modelled from the spec: matrix3x3d.h is not
part of the snapshot; the spec fixes the row-vector-times-matrix
convention with no translation, matching the 3x4 matrix_mul_point3 layout
without the w_axis term. -/
def matrix_mul_vector3x3 (v : Vector4) (m : Matrix3x3) : Vector4 :=
  vector_mul_add (vector_dup_z v) m.z_axis
    (vector_mul_add (vector_dup_y v) m.y_axis
      (vector_mul (vector_dup_x v) m.x_axis))

/-- Determinant of the 3x3 block (the x, y, z lanes of the three rows). -/
def matrix_det3 (m : Matrix3x3) : ℚ :=
  m.x_axis.x * (m.y_axis.y * m.z_axis.z - m.y_axis.z * m.z_axis.y)
    - m.x_axis.y * (m.y_axis.x * m.z_axis.z - m.y_axis.z * m.z_axis.x)
    + m.x_axis.z * (m.y_axis.x * m.z_axis.y - m.y_axis.y * m.z_axis.x)

/-- 3x3 matrix_inverse. Modelled from the spec: matrix3x3d.h is not part
of the snapshot; the spec fixes this as the exact 3x3 inverse (adjugate
over determinant), numerically exact up to rounding, undefined when the
determinant is 0. The unused w lanes of the rows are 0. -/
def matrix_inverse3 (m : Matrix3x3) : Matrix3x3 :=
  let a := m.x_axis.x
  let b := m.x_axis.y
  let c := m.x_axis.z
  let d := m.y_axis.x
  let e := m.y_axis.y
  let f := m.y_axis.z
  let g := m.z_axis.x
  let h := m.z_axis.y
  let i := m.z_axis.z
  let det := matrix_det3 m
  ⟨⟨(e * i - f * h) / det, (c * h - b * i) / det, (b * f - c * e) / det, 0⟩,
   ⟨(f * g - d * i) / det, (a * i - c * g) / det, (c * d - a * f) / det, 0⟩,
   ⟨(d * h - e * g) / det, (b * g - a * h) / det, (a * e - b * d) / det, 0⟩⟩

/-- A 3x4 affine matrix of four row vectors, w_axis holding translation. -/
@[ext]
structure Matrix3x4 where
  x_axis : Vector4
  y_axis : Vector4
  z_axis : Vector4
  w_axis : Vector4
deriving DecidableEq, Repr

/-- matrix_set for four rows. -/
def matrix_set4 (x_axis y_axis z_axis w_axis : Vector4) : Matrix3x4 :=
  ⟨x_axis, y_axis, z_axis, w_axis⟩

/-- matrix_from_qvv, translated from src/includes/rtm/matrix3x4d.h
lines 47-69. -/
def matrix_from_qvv (quat : Quat) (translation scale : Vector4) : Matrix3x4 :=
  let x2 := quat.x + quat.x
  let y2 := quat.y + quat.y
  let z2 := quat.z + quat.z
  let xx := quat.x * x2
  let xy := quat.x * y2
  let xz := quat.x * z2
  let yy := quat.y * y2
  let yz := quat.y * z2
  let zz := quat.z * z2
  let wx := quat.w * x2
  let wy := quat.w * y2
  let wz := quat.w * z2
  ⟨vector_mul_s ⟨1 - (yy + zz), xy + wz, xz - wy, 0⟩ scale.x,
   vector_mul_s ⟨xy - wz, 1 - (xx + zz), yz + wx, 0⟩ scale.y,
   vector_mul_s ⟨xz + wy, yz - wx, 1 - (xx + yy), 0⟩ scale.z,
   ⟨translation.x, translation.y, translation.z, 1⟩⟩

/-- 3x4 matrix_mul, translated from src/includes/rtm/matrix3x4d.h
lines 108-130. -/
def matrix_mul3x4 (lhs rhs : Matrix3x4) : Matrix3x4 :=
  ⟨vector_mul_add (vector_dup_z lhs.x_axis) rhs.z_axis
     (vector_mul_add (vector_dup_y lhs.x_axis) rhs.y_axis
       (vector_mul (vector_dup_x lhs.x_axis) rhs.x_axis)),
   vector_mul_add (vector_dup_z lhs.y_axis) rhs.z_axis
     (vector_mul_add (vector_dup_y lhs.y_axis) rhs.y_axis
       (vector_mul (vector_dup_x lhs.y_axis) rhs.x_axis)),
   vector_mul_add (vector_dup_z lhs.z_axis) rhs.z_axis
     (vector_mul_add (vector_dup_y lhs.z_axis) rhs.y_axis
       (vector_mul (vector_dup_x lhs.z_axis) rhs.x_axis)),
   vector_add rhs.w_axis
     (vector_mul_add (vector_dup_z lhs.w_axis) rhs.z_axis
       (vector_mul_add (vector_dup_y lhs.w_axis) rhs.y_axis
         (vector_mul (vector_dup_x lhs.w_axis) rhs.x_axis)))⟩

/-- matrix_mul_point3, translated from src/includes/rtm/matrix3x4d.h
lines 136-146. -/
def matrix_mul_point3 (point : Vector4) (mtx : Matrix3x4) : Vector4 :=
  let tmp0 := vector_mul_add (vector_dup_y point) mtx.y_axis
    (vector_mul (vector_dup_x point) mtx.x_axis)
  let tmp1 := vector_mul_add (vector_dup_z point) mtx.z_axis mtx.w_axis
  vector_add tmp0 tmp1

/-- The 3x4 matrix's translation-free vector transform. Modelled from the
spec: matrix_mul_vector3 "must not apply translation"; it is the point
transform without the w_axis term. -/
def matrix_mul_vector3x4 (v : Vector4) (m : Matrix3x4) : Vector4 :=
  vector_mul_add (vector_dup_z v) m.z_axis
    (vector_mul_add (vector_dup_y v) m.y_axis
      (vector_mul (vector_dup_x v) m.x_axis))

/-- matrix_remove_scale, translated from src/includes/rtm/matrix3x4d.h
lines 273-281: each axis row is normalized with itself as the fallback and
the default threshold 1.0e-8; the w_axis row is passed through. -/
def matrix_remove_scale (rsqrt : ℚ → ℚ) (input : Matrix3x4) : Matrix3x4 :=
  ⟨vector_normalize3 rsqrt input.x_axis input.x_axis (1 / 100000000),
   vector_normalize3 rsqrt input.y_axis input.y_axis (1 / 100000000),
   vector_normalize3 rsqrt input.z_axis input.z_axis (1 / 100000000),
   input.w_axis⟩

/-- The VQM transform: rotation quaternion (field rot, named rotation in
the source), translation, and a 3x3 scale/shear matrix stored as three
axis rows. From src/includes/rtm/experimental/types.h. -/
@[ext]
structure VQM where
  rot : Quat
  translation : Vector4
  x_axis : Vector4
  y_axis : Vector4
  z_axis : Vector4
deriving DecidableEq, Repr

/-- vqm_set (src/includes/rtm/experimental/vqmd.h lines 113-125): builds a
VQM from translation, rotation and a diagonal scale, each axis row being
the zero vector with one lane replaced by the scale lane. -/
def vqm_set (translation : Vector4) (q : Quat) (scale : Vector4) : VQM :=
  ⟨q, translation,
   vector_set_x vector_zero scale.x,
   vector_set_y vector_zero scale.y,
   vector_set_z vector_zero scale.z⟩

/-- vqm_identity for the float64 variant
(src/includes/rtm/experimental/impl/vqm_common.h lines 47-59). -/
def vqm_identity_d : VQM :=
  ⟨quat_identity, vector_zero, ⟨1, 0, 0, 0⟩, ⟨0, 1, 0, 0⟩, ⟨0, 0, 1, 0⟩⟩

/-- vqm_get_scale (src/includes/rtm/experimental/vqmd.h lines 166-170):
the two vector_mix steps gather the x lane of x_axis, the y lane of
y_axis, and the z and w lanes of z_axis. -/
def vqm_get_scale (input : VQM) : Vector4 :=
  ⟨input.x_axis.x, input.y_axis.y, input.z_axis.z, input.z_axis.w⟩

/-- vqm_set_scale (src/includes/rtm/experimental/vqmd.h lines 176-183):
replaces only the diagonal lanes of the scale/shear rows. -/
def vqm_set_scale (qvm : VQM) (scale : Vector4) : VQM :=
  ⟨VQM.rot qvm, VQM.translation qvm,
   vector_set_x (VQM.x_axis qvm) scale.x,
   vector_set_y (VQM.y_axis qvm) scale.y,
   vector_set_z (VQM.z_axis qvm) scale.z⟩

/-- vqm_mul (src/includes/rtm/experimental/vqmd.h lines 205-232). The
translation uses the original rhs scale/shear rows; the scale/shear result
multiplies the lhs rows rotated by the lhs rotation with the rhs rows
rotated by the conjugate of the lhs rotation. -/
def vqm_mul (lhs rhs : VQM) : VQM :=
  let inv_lhs_rot := quat_conjugate (VQM.rot lhs)
  let lhs_scale_shear := matrix_set3 (VQM.x_axis lhs) (VQM.y_axis lhs) (VQM.z_axis lhs)
  let rhs_scale_shear := matrix_set3 (VQM.x_axis rhs) (VQM.y_axis rhs) (VQM.z_axis rhs)
  let rot_result := quat_mul (VQM.rot lhs) (VQM.rot rhs)
  let translation_result := vector_add
    (quat_mul_vector3 (matrix_mul_vector3x3 (VQM.translation lhs) rhs_scale_shear) (VQM.rot rhs))
    (VQM.translation rhs)
  let rhs_rotated := matrix_set3
    (quat_mul_vector3 rhs_scale_shear.x_axis inv_lhs_rot)
    (quat_mul_vector3 rhs_scale_shear.y_axis inv_lhs_rot)
    (quat_mul_vector3 rhs_scale_shear.z_axis inv_lhs_rot)
  let lhs_rotated := matrix_set3
    (quat_mul_vector3 lhs_scale_shear.x_axis (VQM.rot lhs))
    (quat_mul_vector3 lhs_scale_shear.y_axis (VQM.rot lhs))
    (quat_mul_vector3 lhs_scale_shear.z_axis (VQM.rot lhs))
  let scale_shear := matrix_mul3x3 lhs_rotated rhs_rotated
  ⟨rot_result, translation_result,
   scale_shear.x_axis, scale_shear.y_axis, scale_shear.z_axis⟩

/-- vqm_mul_point3 (src/includes/rtm/experimental/vqmd.h lines 256-262):
scale/shear first, then the rotation sandwich, then add translation. -/
def vqm_mul_point3 (point : Vector4) (vqm : VQM) : Vector4 :=
  let scale_shear := matrix_set3 (VQM.x_axis vqm) (VQM.y_axis vqm) (VQM.z_axis vqm)
  vector_add
    (quat_mul_vector3 (matrix_mul_vector3x3 point scale_shear) (VQM.rot vqm))
    (VQM.translation vqm)

/-- vqm_mul_vector3 (src/includes/rtm/experimental/vqmd.h lines 268-274):
scale/shear first, then the rotation sandwich, no translation. -/
def vqm_mul_vector3 (vec3 : Vector4) (vqm : VQM) : Vector4 :=
  let scale_shear := matrix_set3 (VQM.x_axis vqm) (VQM.y_axis vqm) (VQM.z_axis vqm)
  quat_mul_vector3 (matrix_mul_vector3x3 vec3 scale_shear) (VQM.rot vqm)

/-- vqm_inverse (src/includes/rtm/experimental/vqmd.h lines 281-324). -/
def vqm_inverse (input : VQM) : VQM :=
  let scale_shear := matrix_set3 (VQM.x_axis input) (VQM.y_axis input) (VQM.z_axis input)
  let inv_scale_shear := matrix_inverse3 scale_shear
  let invq := quat_conjugate (VQM.rot input)
  let inv_rotated_scale_shear := matrix_set3
    (quat_mul_vector3 inv_scale_shear.x_axis (VQM.rot input))
    (quat_mul_vector3 inv_scale_shear.y_axis (VQM.rot input))
    (quat_mul_vector3 inv_scale_shear.z_axis (VQM.rot input))
  let inv_rot_mtx := matrix_set3
    (quat_mul_vector3 matrix_identity3.x_axis invq)
    (quat_mul_vector3 matrix_identity3.y_axis invq)
    (quat_mul_vector3 matrix_identity3.z_axis invq)
  let composed := matrix_mul3x3 inv_rot_mtx inv_rotated_scale_shear
  ⟨invq,
   matrix_mul_vector3x3 (quat_mul_vector3 (vector_neg (VQM.translation input)) invq) inv_scale_shear,
   composed.x_axis, composed.y_axis, composed.z_axis⟩

/-- vqm_to_matrix (src/includes/rtm/experimental/vqmd.h lines 329-338):
the scale/shear rows rotated by the rotation become the axis rows, the
translation becomes the w_axis row. -/
def vqm_to_matrix (input : VQM) : Matrix3x4 :=
  ⟨quat_mul_vector3 (VQM.x_axis input) (VQM.rot input),
   quat_mul_vector3 (VQM.y_axis input) (VQM.rot input),
   quat_mul_vector3 (VQM.z_axis input) (VQM.rot input),
   VQM.translation input⟩

/-!
Finiteness model. Rationals cannot represent NaN or infinities, so the
finiteness checks are modelled over a scalar type that tags a lane as a
finite number, a NaN, or a signed infinity. Arithmetic never touches this
type; it exists only for the is_finite family.
-/

/-- A double-precision lane as seen by the finiteness checks: a finite
value, NaN, or a signed infinity. -/
inductive Fp where
  | num (v : ℚ)
  | nan
  | pinf
  | ninf
deriving DecidableEq, Repr

/-- scalar_is_finite: true exactly on finite numbers (external
scalar-library leaf; its contract is fixed by the spec). -/
def scalar_is_finite (s : Fp) : Bool :=
  match s with
  | Fp.num _ => true
  | _ => false

/-- A stored 4-lane vector for the finiteness model. -/
@[ext]
structure Vector4F where
  x : Fp
  y : Fp
  z : Fp
  w : Fp
deriving DecidableEq, Repr

/-- A stored quaternion for the finiteness model. -/
@[ext]
structure QuatF where
  x : Fp
  y : Fp
  z : Fp
  w : Fp
deriving DecidableEq, Repr

/-- vector_is_finite3 (src/includes/rtm/vector4f.h lines 962-965): checks
only the first three lanes. -/
def vector_is_finite3 (input : Vector4F) : Bool :=
  scalar_is_finite input.x && scalar_is_finite input.y && scalar_is_finite input.z

/-- quat_is_finite. Modelled from the spec: quatd.h is not part of the
snapshot; the spec's finite-detection property checks all 4 lanes for the
full variant used on quaternions. -/
def quat_is_finite (input : QuatF) : Bool :=
  scalar_is_finite input.x && scalar_is_finite input.y
    && scalar_is_finite input.z && scalar_is_finite input.w

/-- A stored VQM for the finiteness model. -/
@[ext]
structure VQMF where
  rot : QuatF
  translation : Vector4F
  x_axis : Vector4F
  y_axis : Vector4F
  z_axis : Vector4F
deriving DecidableEq, Repr

/-- qvv_is_finite (src/includes/rtm/experimental/vqmd.h lines 358-365). -/
def qvv_is_finite (input : VQMF) : Bool :=
  quat_is_finite (VQMF.rot input)
    && vector_is_finite3 (VQMF.translation input)
    && vector_is_finite3 (VQMF.x_axis input)
    && vector_is_finite3 (VQMF.y_axis input)
    && vector_is_finite3 (VQMF.z_axis input)

/-- The claim's reading of finiteness: every stored lane of the transform,
including the w lanes of the translation and axis vectors, is finite. -/
def all_stored_finite (input : VQMF) : Bool :=
  quat_is_finite (VQMF.rot input)
    && (vector_is_finite3 (VQMF.translation input) && scalar_is_finite (Vector4F.w (VQMF.translation input)))
    && (vector_is_finite3 (VQMF.x_axis input) && scalar_is_finite (Vector4F.w (VQMF.x_axis input)))
    && (vector_is_finite3 (VQMF.y_axis input) && scalar_is_finite (Vector4F.w (VQMF.y_axis input)))
    && (vector_is_finite3 (VQMF.z_axis input) && scalar_is_finite (Vector4F.w (VQMF.z_axis input)))

/-!
Lemma toolkit: algebraic facts about the embedded primitives used to
assemble the claim theorems.
-/

/-- Vector addition commutes. -/
theorem vadd_comm (u v : Vector4) : vector_add u v = vector_add v u := by
  ext <;> simp [vector_add] <;> ring

/-- The sandwich product is additive in the vector operand. -/
theorem qmv3_add (u v : Vector4) (q : Quat) :
    quat_mul_vector3 (vector_add u v) q
      = vector_add (quat_mul_vector3 u q) (quat_mul_vector3 v q) := by
  ext <;> simp [quat_mul_vector3, quat_hamilton_mul, quat_to_pure, quat_conjugate, vector_add]
    <;> ring

/-- The sandwich product is homogeneous in the vector operand. -/
theorem qmv3_muls (v : Vector4) (c : ℚ) (q : Quat) :
    quat_mul_vector3 (vector_mul_s v c) q = vector_mul_s (quat_mul_vector3 v q) c := by
  ext <;> simp [quat_mul_vector3, quat_hamilton_mul, quat_to_pure, quat_conjugate, vector_mul_s]
    <;> ring

/-- The sandwich product commutes with negation of the vector operand. -/
theorem qmv3_neg (v : Vector4) (q : Quat) :
    quat_mul_vector3 (vector_neg v) q = vector_neg (quat_mul_vector3 v q) := by
  ext <;> simp [quat_mul_vector3, quat_hamilton_mul, quat_to_pure, quat_conjugate, vector_neg]
    <;> ring

/-- The sandwich product ignores the w lane of the vector operand. -/
theorem qmv3_pure_drop (v : Vector4) (q : Quat) :
    quat_mul_vector3 ⟨v.x, v.y, v.z, 0⟩ q = quat_mul_vector3 v q := rfl

/-- Sandwiching by a composed rotation is sandwiching twice: quat_mul
chains local-to-parent. -/
theorem qmv3_comp (v : Vector4) (q1 q2 : Quat) :
    quat_mul_vector3 v (quat_mul q1 q2)
      = quat_mul_vector3 (quat_mul_vector3 v q1) q2 := by
  ext <;> simp [quat_mul_vector3, quat_mul, quat_hamilton_mul, quat_to_pure, quat_conjugate]
    <;> ring

/-- Sandwiching by q then by its conjugate scales the pure part by the
squared norm twice. -/
theorem qmv3_conj_right (v : Vector4) (q : Quat) :
    quat_mul_vector3 (quat_mul_vector3 v q) (quat_conjugate q)
      = vector_mul_s ⟨v.x, v.y, v.z, 0⟩ (quat_norm_sq q ^ 2) := by
  ext <;> simp [quat_mul_vector3, quat_hamilton_mul, quat_to_pure, quat_conjugate,
    vector_mul_s, quat_norm_sq] <;> ring

/-- Sandwiching by the conjugate of q then by q scales the pure part by
the squared norm twice. -/
theorem qmv3_conj_left (v : Vector4) (q : Quat) :
    quat_mul_vector3 (quat_mul_vector3 v (quat_conjugate q)) q
      = vector_mul_s ⟨v.x, v.y, v.z, 0⟩ (quat_norm_sq q ^ 2) := by
  ext <;> simp [quat_mul_vector3, quat_hamilton_mul, quat_to_pure, quat_conjugate,
    vector_mul_s, quat_norm_sq] <;> ring

/-- Scaling a vector by 1 changes nothing. -/
theorem muls_one (v : Vector4) : vector_mul_s v 1 = v := by
  ext <;> simp [vector_mul_s]

/-- The conjugate times the original is the scalar squared-norm
quaternion. -/
theorem conj_hmul_self (q : Quat) :
    quat_hamilton_mul (quat_conjugate q) q = ⟨0, 0, 0, quat_norm_sq q⟩ := by
  ext <;> simp [quat_hamilton_mul, quat_conjugate, quat_norm_sq] <;> ring

/-- The original times the conjugate is the scalar squared-norm
quaternion. -/
theorem hmul_conj_self (q : Quat) :
    quat_hamilton_mul q (quat_conjugate q) = ⟨0, 0, 0, quat_norm_sq q⟩ := by
  ext <;> simp [quat_hamilton_mul, quat_conjugate, quat_norm_sq] <;> ring

/-- Key transport fact behind the VQM group law: a vector rotated into the
lhs local frame by the conjugate and then sandwiched by the composed
rotation comes out rotated by the rhs rotation alone, when the lhs
rotation is unit. -/
theorem qmv3_conj_then_mul (v : Vector4) (q1 q2 : Quat) (h1 : quat_norm_sq q1 = 1) :
    quat_mul_vector3 (quat_mul_vector3 v (quat_conjugate q1)) (quat_mul q1 q2)
      = quat_mul_vector3 v q2 := by
  rw [qmv3_comp, qmv3_conj_left, h1]
  norm_num
  rw [muls_one, qmv3_pure_drop]

/-- The rows of a 3x3 product are the row-vector transforms of the lhs
rows. -/
theorem mul3x3_row_x (L R : Matrix3x3) :
    (matrix_mul3x3 L R).x_axis = matrix_mul_vector3x3 L.x_axis R := rfl

/-- Same for the y row. -/
theorem mul3x3_row_y (L R : Matrix3x3) :
    (matrix_mul3x3 L R).y_axis = matrix_mul_vector3x3 L.y_axis R := rfl

/-- Same for the z row. -/
theorem mul3x3_row_z (L R : Matrix3x3) :
    (matrix_mul3x3 L R).z_axis = matrix_mul_vector3x3 L.z_axis R := rfl

/-- The axis rows of a 3x4 product are the translation-free row-vector
transforms of the lhs axis rows. -/
theorem mul3x4_row_x (L R : Matrix3x4) :
    (matrix_mul3x4 L R).x_axis = matrix_mul_vector3x4 L.x_axis R := rfl

/-- Same for the y row. -/
theorem mul3x4_row_y (L R : Matrix3x4) :
    (matrix_mul3x4 L R).y_axis = matrix_mul_vector3x4 L.y_axis R := rfl

/-- Same for the z row. -/
theorem mul3x4_row_z (L R : Matrix3x4) :
    (matrix_mul3x4 L R).z_axis = matrix_mul_vector3x4 L.z_axis R := rfl

/-- Row-vector transform by a matrix whose rows are all sandwiched by the
same quaternion is the sandwich of the transform by the raw rows. -/
theorem mmv3_rotated_rows (u r1 r2 r3 : Vector4) (p : Quat) :
    matrix_mul_vector3x3 u
        (matrix_set3 (quat_mul_vector3 r1 p) (quat_mul_vector3 r2 p) (quat_mul_vector3 r3 p))
      = quat_mul_vector3 (matrix_mul_vector3x3 u (matrix_set3 r1 r2 r3)) p := by
  ext <;> simp [matrix_mul_vector3x3, matrix_set3, quat_mul_vector3, quat_hamilton_mul,
    quat_to_pure, quat_conjugate, vector_mul_add, vector_mul, vector_add,
    vector_dup_x, vector_dup_y, vector_dup_z] <;> ring

/-- The 3x4 vector transform through a matrix with sandwiched axis rows,
with any w_axis row, is the sandwich of the 3x3 transform. -/
theorem mmv3x4_rotated_rows (u r1 r2 r3 wrow : Vector4) (p : Quat) :
    matrix_mul_vector3x4 u
        (matrix_set4 (quat_mul_vector3 r1 p) (quat_mul_vector3 r2 p) (quat_mul_vector3 r3 p) wrow)
      = quat_mul_vector3 (matrix_mul_vector3x3 u (matrix_set3 r1 r2 r3)) p := by
  ext <;> simp [matrix_mul_vector3x4, matrix_mul_vector3x3, matrix_set4, matrix_set3,
    quat_mul_vector3, quat_hamilton_mul, quat_to_pure, quat_conjugate,
    vector_mul_add, vector_mul, vector_add,
    vector_dup_x, vector_dup_y, vector_dup_z] <;> ring

/-- Row-vector transform composes with the 3x3 product. -/
theorem mmv3_mmv3 (u : Vector4) (A B : Matrix3x3) :
    matrix_mul_vector3x3 (matrix_mul_vector3x3 u A) B
      = matrix_mul_vector3x3 u (matrix_mul3x3 A B) := by
  ext <;> simp [matrix_mul_vector3x3, matrix_mul3x3, vector_mul_add, vector_mul, vector_add,
    vector_dup_x, vector_dup_y, vector_dup_z] <;> ring

/-- Row-vector transform through the identity keeps the first three lanes
and zeroes the w lane. -/
theorem mmv3_identity3 (u : Vector4) :
    matrix_mul_vector3x3 u matrix_identity3 = ⟨u.x, u.y, u.z, 0⟩ := by
  ext <;> simp [matrix_mul_vector3x3, matrix_identity3, vector_mul_add, vector_mul, vector_add,
    vector_dup_x, vector_dup_y, vector_dup_z]

/-- Row-vector transform ignores the w lane of the vector operand. -/
theorem mmv3_congr_w (x y z w wx : ℚ) (M : Matrix3x3) :
    matrix_mul_vector3x3 ⟨x, y, z, w⟩ M = matrix_mul_vector3x3 ⟨x, y, z, wx⟩ M := rfl

/-- Row-vector transform commutes with negation. -/
theorem mmv3_neg (u : Vector4) (M : Matrix3x3) :
    matrix_mul_vector3x3 (vector_neg u) M = vector_neg (matrix_mul_vector3x3 u M) := by
  ext <;> simp [matrix_mul_vector3x3, vector_neg, vector_mul_add, vector_mul, vector_add,
    vector_dup_x, vector_dup_y, vector_dup_z] <;> ring

/-- Row-vector transform written as a combination of scaled rows. -/
theorem mmv3_comb (u : Vector4) (M : Matrix3x3) :
    matrix_mul_vector3x3 u M
      = vector_add (vector_add (vector_mul_s M.x_axis u.x) (vector_mul_s M.y_axis u.y))
          (vector_mul_s M.z_axis u.z) := by
  ext <;> simp [matrix_mul_vector3x3, vector_mul_add, vector_mul, vector_add, vector_mul_s,
    vector_dup_x, vector_dup_y, vector_dup_z] <;> ring

/-- The rotation lane of vqm_mul, definitionally. -/
theorem vqm_mul_rot_def (lhs rhs : VQM) :
    VQM.rot (vqm_mul lhs rhs) = quat_mul (VQM.rot lhs) (VQM.rot rhs) := rfl

/-- The translation lane of vqm_mul, definitionally. -/
theorem vqm_mul_trans_def (lhs rhs : VQM) :
    VQM.translation (vqm_mul lhs rhs)
      = vector_add
          (quat_mul_vector3
            (matrix_mul_vector3x3 (VQM.translation lhs)
              (matrix_set3 (VQM.x_axis rhs) (VQM.y_axis rhs) (VQM.z_axis rhs)))
            (VQM.rot rhs))
          (VQM.translation rhs) := rfl

/-- The x scale/shear row of vqm_mul, definitionally: the lhs row rotated
by the lhs rotation, transformed through the rhs rows rotated by the
conjugate of the lhs rotation. -/
theorem vqm_mul_row_x (lhs rhs : VQM) :
    VQM.x_axis (vqm_mul lhs rhs)
      = matrix_mul_vector3x3 (quat_mul_vector3 (VQM.x_axis lhs) (VQM.rot lhs))
          (matrix_set3
            (quat_mul_vector3 (VQM.x_axis rhs) (quat_conjugate (VQM.rot lhs)))
            (quat_mul_vector3 (VQM.y_axis rhs) (quat_conjugate (VQM.rot lhs)))
            (quat_mul_vector3 (VQM.z_axis rhs) (quat_conjugate (VQM.rot lhs)))) := rfl

/-- Same for the y row. -/
theorem vqm_mul_row_y (lhs rhs : VQM) :
    VQM.y_axis (vqm_mul lhs rhs)
      = matrix_mul_vector3x3 (quat_mul_vector3 (VQM.y_axis lhs) (VQM.rot lhs))
          (matrix_set3
            (quat_mul_vector3 (VQM.x_axis rhs) (quat_conjugate (VQM.rot lhs)))
            (quat_mul_vector3 (VQM.y_axis rhs) (quat_conjugate (VQM.rot lhs)))
            (quat_mul_vector3 (VQM.z_axis rhs) (quat_conjugate (VQM.rot lhs)))) := rfl

/-- Same for the z row. -/
theorem vqm_mul_row_z (lhs rhs : VQM) :
    VQM.z_axis (vqm_mul lhs rhs)
      = matrix_mul_vector3x3 (quat_mul_vector3 (VQM.z_axis lhs) (VQM.rot lhs))
          (matrix_set3
            (quat_mul_vector3 (VQM.x_axis rhs) (quat_conjugate (VQM.rot lhs)))
            (quat_mul_vector3 (VQM.y_axis rhs) (quat_conjugate (VQM.rot lhs)))
            (quat_mul_vector3 (VQM.z_axis rhs) (quat_conjugate (VQM.rot lhs)))) := rfl

/-- Replacing the w lane of the operand does not change a sandwich
product. -/
theorem qmv3_congr_xyz (u v : Vector4) (q : Quat)
    (hx : u.x = v.x) (hy : u.y = v.y) (hz : u.z = v.z) :
    quat_mul_vector3 u q = quat_mul_vector3 v q := by
  rw [← qmv3_pure_drop u, ← qmv3_pure_drop v, hx, hy, hz]

/-- The w lanes of the modelled 3x3 inverse rows are 0. -/
theorem inv3_w_lanes (M : Matrix3x3) :
    (matrix_inverse3 M).x_axis.w = 0 ∧ (matrix_inverse3 M).y_axis.w = 0
      ∧ (matrix_inverse3 M).z_axis.w = 0 :=
  ⟨rfl, rfl, rfl⟩

/-- The x row of M transformed through the inverse of M gives the first
identity row, when the determinant is nonzero. -/
theorem row_x_mul_inv (M : Matrix3x3) (hdet : matrix_det3 M ≠ 0) :
    matrix_mul_vector3x3 M.x_axis (matrix_inverse3 M) = ⟨1, 0, 0, 0⟩ := by
  ext <;> simp [matrix_mul_vector3x3, matrix_inverse3, vector_mul_add, vector_mul, vector_add,
    vector_dup_x, vector_dup_y, vector_dup_z] <;>
  field_simp <;> (try simp only [matrix_det3]) <;> ring

/-- Same for the y row. -/
theorem row_y_mul_inv (M : Matrix3x3) (hdet : matrix_det3 M ≠ 0) :
    matrix_mul_vector3x3 M.y_axis (matrix_inverse3 M) = ⟨0, 1, 0, 0⟩ := by
  ext <;> simp [matrix_mul_vector3x3, matrix_inverse3, vector_mul_add, vector_mul, vector_add,
    vector_dup_x, vector_dup_y, vector_dup_z] <;>
  field_simp <;> (try simp only [matrix_det3]) <;> ring

/-- Same for the z row. -/
theorem row_z_mul_inv (M : Matrix3x3) (hdet : matrix_det3 M ≠ 0) :
    matrix_mul_vector3x3 M.z_axis (matrix_inverse3 M) = ⟨0, 0, 1, 0⟩ := by
  ext <;> simp [matrix_mul_vector3x3, matrix_inverse3, vector_mul_add, vector_mul, vector_add,
    vector_dup_x, vector_dup_y, vector_dup_z] <;>
  field_simp <;> (try simp only [matrix_det3]) <;> ring

/-- Transforming through the inverse and then through M restores the x
lane, when the determinant is nonzero. -/
theorem mmv3_inv_then_M_x (M : Matrix3x3) (hdet : matrix_det3 M ≠ 0) (u : Vector4) :
    (matrix_mul_vector3x3 (matrix_mul_vector3x3 u (matrix_inverse3 M)) M).x = u.x := by
  simp [matrix_mul_vector3x3, matrix_inverse3, vector_mul_add, vector_mul, vector_add,
    vector_dup_x, vector_dup_y, vector_dup_z]
  field_simp
  try simp only [matrix_det3]
  ring

/-- Same for the y lane. -/
theorem mmv3_inv_then_M_y (M : Matrix3x3) (hdet : matrix_det3 M ≠ 0) (u : Vector4) :
    (matrix_mul_vector3x3 (matrix_mul_vector3x3 u (matrix_inverse3 M)) M).y = u.y := by
  simp [matrix_mul_vector3x3, matrix_inverse3, vector_mul_add, vector_mul, vector_add,
    vector_dup_x, vector_dup_y, vector_dup_z]
  field_simp
  try simp only [matrix_det3]
  ring

/-- Same for the z lane. -/
theorem mmv3_inv_then_M_z (M : Matrix3x3) (hdet : matrix_det3 M ≠ 0) (u : Vector4) :
    (matrix_mul_vector3x3 (matrix_mul_vector3x3 u (matrix_inverse3 M)) M).z = u.z := by
  simp [matrix_mul_vector3x3, matrix_inverse3, vector_mul_add, vector_mul, vector_add,
    vector_dup_x, vector_dup_y, vector_dup_z]
  field_simp
  try simp only [matrix_det3]
  ring

/-- The x row of the converted matrix, definitionally. -/
theorem vqm_to_matrix_row_x (T : VQM) :
    (vqm_to_matrix T).x_axis = quat_mul_vector3 (VQM.x_axis T) (VQM.rot T) := rfl

/-- The y row of the converted matrix, definitionally. -/
theorem vqm_to_matrix_row_y (T : VQM) :
    (vqm_to_matrix T).y_axis = quat_mul_vector3 (VQM.y_axis T) (VQM.rot T) := rfl

/-- The z row of the converted matrix, definitionally. -/
theorem vqm_to_matrix_row_z (T : VQM) :
    (vqm_to_matrix T).z_axis = quat_mul_vector3 (VQM.z_axis T) (VQM.rot T) := rfl

/-- The translation row of the converted matrix, definitionally. -/
theorem vqm_to_matrix_row_w (T : VQM) :
    (vqm_to_matrix T).w_axis = VQM.translation T := rfl

/-- The converted matrix in matrix_set4 form, definitionally. -/
theorem vqm_to_matrix_set4 (T : VQM) :
    vqm_to_matrix T
      = matrix_set4 (quat_mul_vector3 (VQM.x_axis T) (VQM.rot T))
          (quat_mul_vector3 (VQM.y_axis T) (VQM.rot T))
          (quat_mul_vector3 (VQM.z_axis T) (VQM.rot T))
          (VQM.translation T) := rfl

/-- The translation row of a 3x4 product, definitionally. -/
theorem mul3x4_row_w (L R : Matrix3x4) :
    (matrix_mul3x4 L R).w_axis
      = vector_add R.w_axis (matrix_mul_vector3x4 L.w_axis R) := rfl

/-- Rebuilding a vector from its four lanes gives it back. -/
theorem vec_eta (v : Vector4) : (⟨v.x, v.y, v.z, v.w⟩ : Vector4) = v := rfl

/-- Rebuilding a 3x3 matrix from its rows gives it back. -/
theorem set3_eta (M : Matrix3x3) : matrix_set3 M.x_axis M.y_axis M.z_axis = M := rfl

/-- Conjugation is an involution. -/
theorem conj_conj (q : Quat) : quat_conjugate (quat_conjugate q) = q := by
  ext <;> simp [quat_conjugate]

/-- Explicit-row form of the first inverse-row identity. -/
theorem row_x_mul_inv3 (r1 r2 r3 : Vector4)
    (hdet : matrix_det3 (matrix_set3 r1 r2 r3) ≠ 0) :
    matrix_mul_vector3x3 r1 (matrix_inverse3 (matrix_set3 r1 r2 r3)) = ⟨1, 0, 0, 0⟩ :=
  row_x_mul_inv (matrix_set3 r1 r2 r3) hdet

/-- Explicit-row form of the second inverse-row identity. -/
theorem row_y_mul_inv3 (r1 r2 r3 : Vector4)
    (hdet : matrix_det3 (matrix_set3 r1 r2 r3) ≠ 0) :
    matrix_mul_vector3x3 r2 (matrix_inverse3 (matrix_set3 r1 r2 r3)) = ⟨0, 1, 0, 0⟩ :=
  row_y_mul_inv (matrix_set3 r1 r2 r3) hdet

/-- Explicit-row form of the third inverse-row identity. -/
theorem row_z_mul_inv3 (r1 r2 r3 : Vector4)
    (hdet : matrix_det3 (matrix_set3 r1 r2 r3) ≠ 0) :
    matrix_mul_vector3x3 r3 (matrix_inverse3 (matrix_set3 r1 r2 r3)) = ⟨0, 0, 1, 0⟩ :=
  row_z_mul_inv (matrix_set3 r1 r2 r3) hdet

/-- The w lane of a transform through the modelled 3x3 inverse is 0. -/
theorem mmv3_inv_w (u : Vector4) (M : Matrix3x3) :
    (matrix_mul_vector3x3 u (matrix_inverse3 M)).w = 0 := by
  simp [matrix_mul_vector3x3, matrix_inverse3, vector_mul_add, vector_mul, vector_add,
    vector_dup_x, vector_dup_y, vector_dup_z]

/-- The rotation lane of vqm_inverse, definitionally. -/
theorem vqm_inverse_rot_def (T : VQM) :
    VQM.rot (vqm_inverse T) = quat_conjugate (VQM.rot T) := rfl

/-- The translation lane of vqm_inverse, definitionally. -/
theorem vqm_inverse_trans_def (T : VQM) :
    VQM.translation (vqm_inverse T)
      = matrix_mul_vector3x3
          (quat_mul_vector3 (vector_neg (VQM.translation T)) (quat_conjugate (VQM.rot T)))
          (matrix_inverse3 (matrix_set3 (VQM.x_axis T) (VQM.y_axis T) (VQM.z_axis T))) := rfl

/-- The scale/shear rows of vqm_inverse as a 3x3 product, definitionally:
the inverse rotation matrix times the input-rotated inverse scale/shear. -/
theorem vqm_inverse_mtx_def (T : VQM) :
    matrix_set3 (VQM.x_axis (vqm_inverse T)) (VQM.y_axis (vqm_inverse T))
        (VQM.z_axis (vqm_inverse T))
      = matrix_mul3x3
          (matrix_set3
            (quat_mul_vector3 matrix_identity3.x_axis (quat_conjugate (VQM.rot T)))
            (quat_mul_vector3 matrix_identity3.y_axis (quat_conjugate (VQM.rot T)))
            (quat_mul_vector3 matrix_identity3.z_axis (quat_conjugate (VQM.rot T))))
          (matrix_set3
            (quat_mul_vector3
              (matrix_inverse3 (matrix_set3 (VQM.x_axis T) (VQM.y_axis T) (VQM.z_axis T))).x_axis
              (VQM.rot T))
            (quat_mul_vector3
              (matrix_inverse3 (matrix_set3 (VQM.x_axis T) (VQM.y_axis T) (VQM.z_axis T))).y_axis
              (VQM.rot T))
            (quat_mul_vector3
              (matrix_inverse3 (matrix_set3 (VQM.x_axis T) (VQM.y_axis T) (VQM.z_axis T))).z_axis
              (VQM.rot T))) := rfl

/-- The x row of vqm_inverse's scale/shear block, reduced to a sandwich of
a transform through the plain inverse. -/
theorem vqm_inverse_row_x_red (T : VQM) :
    VQM.x_axis (vqm_inverse T)
      = quat_mul_vector3
          (matrix_mul_vector3x3
            (quat_mul_vector3 matrix_identity3.x_axis (quat_conjugate (VQM.rot T)))
            (matrix_inverse3 (matrix_set3 (VQM.x_axis T) (VQM.y_axis T) (VQM.z_axis T))))
          (VQM.rot T) := by
  have h0 : VQM.x_axis (vqm_inverse T)
      = matrix_mul_vector3x3
          (quat_mul_vector3 matrix_identity3.x_axis (quat_conjugate (VQM.rot T)))
          (matrix_set3
            (quat_mul_vector3
              (matrix_inverse3 (matrix_set3 (VQM.x_axis T) (VQM.y_axis T) (VQM.z_axis T))).x_axis
              (VQM.rot T))
            (quat_mul_vector3
              (matrix_inverse3 (matrix_set3 (VQM.x_axis T) (VQM.y_axis T) (VQM.z_axis T))).y_axis
              (VQM.rot T))
            (quat_mul_vector3
              (matrix_inverse3 (matrix_set3 (VQM.x_axis T) (VQM.y_axis T) (VQM.z_axis T))).z_axis
              (VQM.rot T))) := rfl
  rw [h0, mmv3_rotated_rows, set3_eta]

/-- Same for the y row. -/
theorem vqm_inverse_row_y_red (T : VQM) :
    VQM.y_axis (vqm_inverse T)
      = quat_mul_vector3
          (matrix_mul_vector3x3
            (quat_mul_vector3 matrix_identity3.y_axis (quat_conjugate (VQM.rot T)))
            (matrix_inverse3 (matrix_set3 (VQM.x_axis T) (VQM.y_axis T) (VQM.z_axis T))))
          (VQM.rot T) := by
  have h0 : VQM.y_axis (vqm_inverse T)
      = matrix_mul_vector3x3
          (quat_mul_vector3 matrix_identity3.y_axis (quat_conjugate (VQM.rot T)))
          (matrix_set3
            (quat_mul_vector3
              (matrix_inverse3 (matrix_set3 (VQM.x_axis T) (VQM.y_axis T) (VQM.z_axis T))).x_axis
              (VQM.rot T))
            (quat_mul_vector3
              (matrix_inverse3 (matrix_set3 (VQM.x_axis T) (VQM.y_axis T) (VQM.z_axis T))).y_axis
              (VQM.rot T))
            (quat_mul_vector3
              (matrix_inverse3 (matrix_set3 (VQM.x_axis T) (VQM.y_axis T) (VQM.z_axis T))).z_axis
              (VQM.rot T))) := rfl
  rw [h0, mmv3_rotated_rows, set3_eta]

/-- Same for the z row. -/
theorem vqm_inverse_row_z_red (T : VQM) :
    VQM.z_axis (vqm_inverse T)
      = quat_mul_vector3
          (matrix_mul_vector3x3
            (quat_mul_vector3 matrix_identity3.z_axis (quat_conjugate (VQM.rot T)))
            (matrix_inverse3 (matrix_set3 (VQM.x_axis T) (VQM.y_axis T) (VQM.z_axis T))))
          (VQM.rot T) := by
  have h0 : VQM.z_axis (vqm_inverse T)
      = matrix_mul_vector3x3
          (quat_mul_vector3 matrix_identity3.z_axis (quat_conjugate (VQM.rot T)))
          (matrix_set3
            (quat_mul_vector3
              (matrix_inverse3 (matrix_set3 (VQM.x_axis T) (VQM.y_axis T) (VQM.z_axis T))).x_axis
              (VQM.rot T))
            (quat_mul_vector3
              (matrix_inverse3 (matrix_set3 (VQM.x_axis T) (VQM.y_axis T) (VQM.z_axis T))).y_axis
              (VQM.rot T))
            (quat_mul_vector3
              (matrix_inverse3 (matrix_set3 (VQM.x_axis T) (VQM.y_axis T) (VQM.z_axis T))).z_axis
              (VQM.rot T))) := rfl
  rw [h0, mmv3_rotated_rows, set3_eta]

/-- Sandwiching by q then by its conjugate is the identity on the first
three lanes when q is unit. -/
theorem qmv3_conj_right_unit (v : Vector4) (q : Quat) (hq : quat_norm_sq q = 1) :
    quat_mul_vector3 (quat_mul_vector3 v q) (quat_conjugate q) = ⟨v.x, v.y, v.z, 0⟩ := by
  rw [qmv3_conj_right, hq]
  norm_num
  exact muls_one _

/-- Sandwiching by the conjugate then by q is the identity on the first
three lanes when q is unit. -/
theorem qmv3_conj_left_unit (v : Vector4) (q : Quat) (hq : quat_norm_sq q = 1) :
    quat_mul_vector3 (quat_mul_vector3 v (quat_conjugate q)) q = ⟨v.x, v.y, v.z, 0⟩ := by
  rw [qmv3_conj_left, hq]
  norm_num
  exact muls_one _

/-!
Claim theorems.
-/

/-- Claim C1. Converting the VQM product to a matrix agrees lane for lane
(exactly, in this rational model) with the matrix product of the
conversions, for every pair of transforms whose lhs rotation is unit,
including transforms with negative or zero scale on any axes; the rhs
rotation can even be arbitrary. -/
theorem vqm_to_matrix_vqm_mul (A B : VQM) (h1 : quat_norm_sq (VQM.rot A) = 1) :
    vqm_to_matrix (vqm_mul A B) = matrix_mul3x4 (vqm_to_matrix A) (vqm_to_matrix B) := by
  refine Matrix3x4.ext ?_ ?_ ?_ ?_
  · rw [vqm_to_matrix_row_x, vqm_mul_row_x, vqm_mul_rot_def, mmv3_rotated_rows,
      qmv3_conj_then_mul _ _ _ h1, mul3x4_row_x, vqm_to_matrix_row_x, vqm_to_matrix_set4 B,
      mmv3x4_rotated_rows]
  · rw [vqm_to_matrix_row_y, vqm_mul_row_y, vqm_mul_rot_def, mmv3_rotated_rows,
      qmv3_conj_then_mul _ _ _ h1, mul3x4_row_y, vqm_to_matrix_row_y, vqm_to_matrix_set4 B,
      mmv3x4_rotated_rows]
  · rw [vqm_to_matrix_row_z, vqm_mul_row_z, vqm_mul_rot_def, mmv3_rotated_rows,
      qmv3_conj_then_mul _ _ _ h1, mul3x4_row_z, vqm_to_matrix_row_z, vqm_to_matrix_set4 B,
      mmv3x4_rotated_rows]
  · rw [vqm_to_matrix_row_w, vqm_mul_trans_def, mul3x4_row_w, vqm_to_matrix_row_w,
      vqm_to_matrix_set4 B, mmv3x4_rotated_rows, vqm_to_matrix_row_w, vadd_comm]

/-- Witness for C1 at a concrete unit lhs rotation, a non-unit rhs
rotation, and scale/shear rows with negative and zero scales. -/
theorem vqm_to_matrix_vqm_mul_witness :
    quat_norm_sq ⟨1 / 2, 1 / 2, 1 / 2, 1 / 2⟩ = 1
      ∧ vqm_to_matrix
          (vqm_mul
            ⟨⟨1 / 2, 1 / 2, 1 / 2, 1 / 2⟩, ⟨1, 2, 3, 0⟩, ⟨2, 0, 0, 0⟩, ⟨1, -3, 0, 0⟩, ⟨0, 0, 0, 0⟩⟩
            ⟨⟨1, 2, 3, 4⟩, ⟨-1, 0, 2, 0⟩, ⟨-2, 1, 0, 0⟩, ⟨0, 5, 1, 0⟩, ⟨7, 0, -1, 0⟩⟩)
        = matrix_mul3x4
            (vqm_to_matrix
              ⟨⟨1 / 2, 1 / 2, 1 / 2, 1 / 2⟩, ⟨1, 2, 3, 0⟩, ⟨2, 0, 0, 0⟩, ⟨1, -3, 0, 0⟩, ⟨0, 0, 0, 0⟩⟩)
            (vqm_to_matrix
              ⟨⟨1, 2, 3, 4⟩, ⟨-1, 0, 2, 0⟩, ⟨-2, 1, 0, 0⟩, ⟨0, 5, 1, 0⟩, ⟨7, 0, -1, 0⟩⟩) :=
  ⟨by norm_num [quat_norm_sq],
   vqm_to_matrix_vqm_mul
     ⟨⟨1 / 2, 1 / 2, 1 / 2, 1 / 2⟩, ⟨1, 2, 3, 0⟩, ⟨2, 0, 0, 0⟩, ⟨1, -3, 0, 0⟩, ⟨0, 0, 0, 0⟩⟩
     ⟨⟨1, 2, 3, 4⟩, ⟨-1, 0, 2, 0⟩, ⟨-2, 1, 0, 0⟩, ⟨0, 5, 1, 0⟩, ⟨7, 0, -1, 0⟩⟩
     (by norm_num [quat_norm_sq])⟩

/-- Counterexample to Claim C4 as stated: already at the identity rotation,
unit scale, and the translation (1, 2, 3, 0), the converted matrix and
matrix_from_qvv differ in the 4th lane of the translation row by exactly 1,
far beyond any of the stated thresholds (the VQM side keeps t's w lane,
matrix_from_qvv writes 1). -/
theorem vqm_set_matrix_qvv_cex :
    vqm_to_matrix (vqm_set ⟨1, 2, 3, 0⟩ quat_identity ⟨1, 1, 1, 0⟩)
        ≠ matrix_from_qvv quat_identity ⟨1, 2, 3, 0⟩ ⟨1, 1, 1, 0⟩
      ∧ (vqm_to_matrix (vqm_set ⟨1, 2, 3, 0⟩ quat_identity ⟨1, 1, 1, 0⟩)).w_axis.w = 0
      ∧ (matrix_from_qvv quat_identity ⟨1, 2, 3, 0⟩ ⟨1, 1, 1, 0⟩).w_axis.w = 1 := by
  refine ⟨fun h => ?_, rfl, rfl⟩
  have hw := congrArg (fun m => Vector4.w (Matrix3x4.w_axis m)) h
  norm_num [vqm_to_matrix, vqm_set, matrix_from_qvv, quat_identity, vector_set_x,
    vector_set_y, vector_set_z, vector_zero, vector_mul_s] at hw

/-- Claim C4 (amended). For every unit rotation q, translation t and scale
s (including negative and zero scale lanes), the three axis rows of the
converted matrix agree with matrix_from_qvv in every lane, and the
translation rows agree in the x, y, z lanes; their w lanes are t's w lane
on the VQM side and exactly 1 on the matrix_from_qvv side, so the full
rows agree exactly when t's w lane is 1. -/
theorem vqm_set_matrix_qvv (q : Quat) (t s : Vector4) (hq : quat_norm_sq q = 1) :
    (vqm_to_matrix (vqm_set t q s)).x_axis = (matrix_from_qvv q t s).x_axis
      ∧ (vqm_to_matrix (vqm_set t q s)).y_axis = (matrix_from_qvv q t s).y_axis
      ∧ (vqm_to_matrix (vqm_set t q s)).z_axis = (matrix_from_qvv q t s).z_axis
      ∧ (vqm_to_matrix (vqm_set t q s)).w_axis = ⟨t.x, t.y, t.z, t.w⟩
      ∧ (matrix_from_qvv q t s).w_axis = ⟨t.x, t.y, t.z, 1⟩ := by
  have hq2 : q.x * q.x + q.y * q.y + q.z * q.z + q.w * q.w = 1 := hq
  refine ⟨?_, ?_, ?_, rfl, rfl⟩
  · ext <;> simp [vqm_to_matrix, vqm_set, matrix_from_qvv, vector_set_x, vector_zero,
      quat_mul_vector3, quat_hamilton_mul, quat_to_pure, quat_conjugate, vector_mul_s] <;>
    first
    | ring1
    | linear_combination s.x * hq2
  · ext <;> simp [vqm_to_matrix, vqm_set, matrix_from_qvv, vector_set_y, vector_zero,
      quat_mul_vector3, quat_hamilton_mul, quat_to_pure, quat_conjugate, vector_mul_s] <;>
    first
    | ring1
    | linear_combination s.y * hq2
  · ext <;> simp [vqm_to_matrix, vqm_set, matrix_from_qvv, vector_set_z, vector_zero,
      quat_mul_vector3, quat_hamilton_mul, quat_to_pure, quat_conjugate, vector_mul_s] <;>
    first
    | ring1
    | linear_combination s.z * hq2

/-- Witness for amended C4 at a concrete unit rotation, a translation with
a junk w lane, and a scale with negative and zero lanes. -/
theorem vqm_set_matrix_qvv_witness :
    quat_norm_sq ⟨3 / 5, 0, 4 / 5, 0⟩ = 1
      ∧ (vqm_to_matrix (vqm_set ⟨1, 2, 3, 7⟩ ⟨3 / 5, 0, 4 / 5, 0⟩ ⟨-2, 0, 5, 0⟩)).x_axis
          = (matrix_from_qvv ⟨3 / 5, 0, 4 / 5, 0⟩ ⟨1, 2, 3, 7⟩ ⟨-2, 0, 5, 0⟩).x_axis
      ∧ (vqm_to_matrix (vqm_set ⟨1, 2, 3, 7⟩ ⟨3 / 5, 0, 4 / 5, 0⟩ ⟨-2, 0, 5, 0⟩)).w_axis
          = ⟨1, 2, 3, 7⟩ :=
  ⟨by norm_num [quat_norm_sq],
   (vqm_set_matrix_qvv ⟨3 / 5, 0, 4 / 5, 0⟩ ⟨1, 2, 3, 7⟩ ⟨-2, 0, 5, 0⟩
     (by norm_num [quat_norm_sq])).1,
   (vqm_set_matrix_qvv ⟨3 / 5, 0, 4 / 5, 0⟩ ⟨1, 2, 3, 7⟩ ⟨-2, 0, 5, 0⟩
     (by norm_num [quat_norm_sq])).2.2.2.1⟩

/-- Counterexample to Claim C8 as stated: a transform whose only
non-finite lane is the w lane of the translation is reported finite by
qvv_is_finite, so "true iff every stored component is finite" fails. -/
theorem qvv_is_finite_cex :
    qvv_is_finite
        ⟨⟨Fp.num 0, Fp.num 0, Fp.num 0, Fp.num 1⟩,
         ⟨Fp.num 0, Fp.num 0, Fp.num 0, Fp.nan⟩,
         ⟨Fp.num 1, Fp.num 0, Fp.num 0, Fp.num 0⟩,
         ⟨Fp.num 0, Fp.num 1, Fp.num 0, Fp.num 0⟩,
         ⟨Fp.num 0, Fp.num 0, Fp.num 1, Fp.num 0⟩⟩ = true
      ∧ all_stored_finite
        ⟨⟨Fp.num 0, Fp.num 0, Fp.num 0, Fp.num 1⟩,
         ⟨Fp.num 0, Fp.num 0, Fp.num 0, Fp.nan⟩,
         ⟨Fp.num 1, Fp.num 0, Fp.num 0, Fp.num 0⟩,
         ⟨Fp.num 0, Fp.num 1, Fp.num 0, Fp.num 0⟩,
         ⟨Fp.num 0, Fp.num 0, Fp.num 1, Fp.num 0⟩⟩ = false :=
  ⟨rfl, rfl⟩

/-- Claim C8 (amended). qvv_is_finite returns true iff all four lanes of
the rotation quaternion and the x, y, z lanes of the translation and of
each of the three scale/shear axis rows are finite; the w lanes of the
stored vectors are not checked. -/
theorem qvv_is_finite_iff (T : VQMF) :
    qvv_is_finite T = true ↔
      ((scalar_is_finite (QuatF.x (VQMF.rot T)) = true
          ∧ scalar_is_finite (QuatF.y (VQMF.rot T)) = true
          ∧ scalar_is_finite (QuatF.z (VQMF.rot T)) = true
          ∧ scalar_is_finite (QuatF.w (VQMF.rot T)) = true)
        ∧ (scalar_is_finite (Vector4F.x (VQMF.translation T)) = true
          ∧ scalar_is_finite (Vector4F.y (VQMF.translation T)) = true
          ∧ scalar_is_finite (Vector4F.z (VQMF.translation T)) = true)
        ∧ (scalar_is_finite (Vector4F.x (VQMF.x_axis T)) = true
          ∧ scalar_is_finite (Vector4F.y (VQMF.x_axis T)) = true
          ∧ scalar_is_finite (Vector4F.z (VQMF.x_axis T)) = true)
        ∧ (scalar_is_finite (Vector4F.x (VQMF.y_axis T)) = true
          ∧ scalar_is_finite (Vector4F.y (VQMF.y_axis T)) = true
          ∧ scalar_is_finite (Vector4F.z (VQMF.y_axis T)) = true)
        ∧ (scalar_is_finite (Vector4F.x (VQMF.z_axis T)) = true
          ∧ scalar_is_finite (Vector4F.y (VQMF.z_axis T)) = true
          ∧ scalar_is_finite (Vector4F.z (VQMF.z_axis T)) = true)) := by
  simp only [qvv_is_finite, quat_is_finite, vector_is_finite3, Bool.and_eq_true]
  tauto

/-- Claim C10. matrix_remove_scale keeps the translation row, keeps any
axis row whose squared 3D length is below the default threshold 1.0e-8
unchanged (so a zero axis stays the zero axis and no division happens),
and scales any other axis row by the reciprocal square root of its squared
3D length, giving squared 3D length exactly 1 whenever the supplied
reciprocal square root is exact at that length. -/
theorem matrix_remove_scale_spec (rsqrt : ℚ → ℚ) (m : Matrix3x4) :
    (matrix_remove_scale rsqrt m).w_axis = m.w_axis
      ∧ (vector_length_squared3 m.x_axis < 1 / 100000000 →
          (matrix_remove_scale rsqrt m).x_axis = m.x_axis)
      ∧ (1 / 100000000 ≤ vector_length_squared3 m.x_axis →
          (matrix_remove_scale rsqrt m).x_axis
            = vector_mul_s m.x_axis (rsqrt (vector_length_squared3 m.x_axis)))
      ∧ (1 / 100000000 ≤ vector_length_squared3 m.x_axis →
          rsqrt (vector_length_squared3 m.x_axis) * rsqrt (vector_length_squared3 m.x_axis)
              * vector_length_squared3 m.x_axis = 1 →
          vector_length_squared3 ((matrix_remove_scale rsqrt m).x_axis) = 1)
      ∧ (vector_length_squared3 m.y_axis < 1 / 100000000 →
          (matrix_remove_scale rsqrt m).y_axis = m.y_axis)
      ∧ (1 / 100000000 ≤ vector_length_squared3 m.y_axis →
          (matrix_remove_scale rsqrt m).y_axis
            = vector_mul_s m.y_axis (rsqrt (vector_length_squared3 m.y_axis)))
      ∧ (1 / 100000000 ≤ vector_length_squared3 m.y_axis →
          rsqrt (vector_length_squared3 m.y_axis) * rsqrt (vector_length_squared3 m.y_axis)
              * vector_length_squared3 m.y_axis = 1 →
          vector_length_squared3 ((matrix_remove_scale rsqrt m).y_axis) = 1)
      ∧ (vector_length_squared3 m.z_axis < 1 / 100000000 →
          (matrix_remove_scale rsqrt m).z_axis = m.z_axis)
      ∧ (1 / 100000000 ≤ vector_length_squared3 m.z_axis →
          (matrix_remove_scale rsqrt m).z_axis
            = vector_mul_s m.z_axis (rsqrt (vector_length_squared3 m.z_axis)))
      ∧ (1 / 100000000 ≤ vector_length_squared3 m.z_axis →
          rsqrt (vector_length_squared3 m.z_axis) * rsqrt (vector_length_squared3 m.z_axis)
              * vector_length_squared3 m.z_axis = 1 →
          vector_length_squared3 ((matrix_remove_scale rsqrt m).z_axis) = 1) := by
  refine ⟨rfl, ?_, ?_, ?_, ?_, ?_, ?_, ?_, ?_, ?_⟩ <;> intro h
  · simp only [matrix_remove_scale, vector_normalize3]
    rw [if_neg (not_le.mpr h)]
  · simp only [matrix_remove_scale, vector_normalize3]
    rw [if_pos h]
  · intro hr
    simp only [matrix_remove_scale, vector_normalize3, if_pos h]
    simp only [vector_length_squared3, vector_dot3, vector_mul_s] at hr ⊢
    linear_combination hr
  · simp only [matrix_remove_scale, vector_normalize3]
    rw [if_neg (not_le.mpr h)]
  · simp only [matrix_remove_scale, vector_normalize3]
    rw [if_pos h]
  · intro hr
    simp only [matrix_remove_scale, vector_normalize3, if_pos h]
    simp only [vector_length_squared3, vector_dot3, vector_mul_s] at hr ⊢
    linear_combination hr
  · simp only [matrix_remove_scale, vector_normalize3]
    rw [if_neg (not_le.mpr h)]
  · simp only [matrix_remove_scale, vector_normalize3]
    rw [if_pos h]
  · intro hr
    simp only [matrix_remove_scale, vector_normalize3, if_pos h]
    simp only [vector_length_squared3, vector_dot3, vector_mul_s] at hr ⊢
    linear_combination hr

/-- Witness for C10: a matrix with a length-5 x axis, a zero y axis and a
unit z axis, with an exact reciprocal square root at the lengths that
occur; the zero axis passes through unchanged and the long axis comes out
with unit squared length. -/
theorem matrix_remove_scale_spec_witness :
    (matrix_remove_scale (fun l => if l = 25 then 1 / 5 else 1)
        ⟨⟨3, 0, 4, 9⟩, ⟨0, 0, 0, 2⟩, ⟨0, 1, 0, 0⟩, ⟨5, 6, 7, 1⟩⟩).w_axis = ⟨5, 6, 7, 1⟩
      ∧ (matrix_remove_scale (fun l => if l = 25 then 1 / 5 else 1)
          ⟨⟨3, 0, 4, 9⟩, ⟨0, 0, 0, 2⟩, ⟨0, 1, 0, 0⟩, ⟨5, 6, 7, 1⟩⟩).y_axis = ⟨0, 0, 0, 2⟩
      ∧ vector_length_squared3
          ((matrix_remove_scale (fun l => if l = 25 then 1 / 5 else 1)
            ⟨⟨3, 0, 4, 9⟩, ⟨0, 0, 0, 2⟩, ⟨0, 1, 0, 0⟩, ⟨5, 6, 7, 1⟩⟩).x_axis) = 1
      ∧ vector_length_squared3
          ((matrix_remove_scale (fun l => if l = 25 then 1 / 5 else 1)
            ⟨⟨3, 0, 4, 9⟩, ⟨0, 0, 0, 2⟩, ⟨0, 1, 0, 0⟩, ⟨5, 6, 7, 1⟩⟩).z_axis) = 1 := by
  have h := matrix_remove_scale_spec (fun l => if l = 25 then 1 / 5 else 1)
    ⟨⟨3, 0, 4, 9⟩, ⟨0, 0, 0, 2⟩, ⟨0, 1, 0, 0⟩, ⟨5, 6, 7, 1⟩⟩
  refine ⟨h.1, h.2.2.2.2.1 (by norm_num [vector_length_squared3, vector_dot3]), ?_, ?_⟩
  · exact h.2.2.2.1 (by norm_num [vector_length_squared3, vector_dot3])
      (by norm_num [vector_length_squared3, vector_dot3])
  · exact h.2.2.2.2.2.2.2.2.2 (by norm_num [vector_length_squared3, vector_dot3])
      (by norm_num [vector_length_squared3, vector_dot3])

/-- Claim C2. vqm_mul returns the transform whose rotation is the Hamilton
product q2 * q1, whose translation is the sandwich q2 * (M2 * v1) * q2^-1
plus v2, and whose scale/shear rows are the 3x3 product of lhs's rows
rotated by q1 (left operand) with rhs's rows rotated by the conjugate of
q1 (right operand), here spelled out as explicit row combinations. -/
theorem vqm_mul_formula (lhs rhs : VQM) :
    vqm_mul lhs rhs =
      (let q1 := VQM.rot lhs
       let q2 := VQM.rot rhs
       let m2 := matrix_set3 (VQM.x_axis rhs) (VQM.y_axis rhs) (VQM.z_axis rhs)
       let s := quat_hamilton_mul
         (quat_hamilton_mul q2
           (quat_to_pure (matrix_mul_vector3x3 (VQM.translation lhs) m2)))
         (quat_conjugate q2)
       let a1 := quat_mul_vector3 (VQM.x_axis lhs) q1
       let a2 := quat_mul_vector3 (VQM.y_axis lhs) q1
       let a3 := quat_mul_vector3 (VQM.z_axis lhs) q1
       let b1 := quat_mul_vector3 (VQM.x_axis rhs) (quat_conjugate q1)
       let b2 := quat_mul_vector3 (VQM.y_axis rhs) (quat_conjugate q1)
       let b3 := quat_mul_vector3 (VQM.z_axis rhs) (quat_conjugate q1)
       ⟨quat_hamilton_mul q2 q1,
        vector_add ⟨s.x, s.y, s.z, s.w⟩ (VQM.translation rhs),
        vector_add (vector_add (vector_mul_s b1 a1.x) (vector_mul_s b2 a1.y)) (vector_mul_s b3 a1.z),
        vector_add (vector_add (vector_mul_s b1 a2.x) (vector_mul_s b2 a2.y)) (vector_mul_s b3 a2.z),
        vector_add (vector_add (vector_mul_s b1 a3.x) (vector_mul_s b2 a3.y)) (vector_mul_s b3 a3.z)⟩) := by
  refine VQM.ext rfl rfl ?_ ?_ ?_
  · rw [vqm_mul_row_x, mmv3_comb]; rfl
  · rw [vqm_mul_row_y, mmv3_comb]; rfl
  · rw [vqm_mul_row_z, mmv3_comb]; rfl

/-- Claim C5. For every 3D point p and VQM transform T, applying the VQM
to the point agrees lane for lane with transforming the point by the
converted matrix, and the vector transform agrees with the matrix's
translation-free transform. -/
theorem vqm_point_matrix_equiv (p : Vector4) (T : VQM) :
    vqm_mul_point3 p T = matrix_mul_point3 p (vqm_to_matrix T)
      ∧ vqm_mul_vector3 p T = matrix_mul_vector3x4 p (vqm_to_matrix T) := by
  obtain ⟨q, v, mx, my, mz⟩ := T
  constructor <;>
    (ext <;> simp [vqm_mul_point3, vqm_mul_vector3, vqm_to_matrix, matrix_mul_point3,
      matrix_mul_vector3x4, matrix_mul_vector3x3, matrix_set3,
      quat_mul_vector3, quat_hamilton_mul, quat_to_pure, quat_conjugate,
      vector_mul_add, vector_mul, vector_add,
      vector_dup_x, vector_dup_y, vector_dup_z] <;> ring)

set_option linter.unusedVariables false in
/-- Claim C6. 3x4 matrix_mul preserves the affine invariant exactly (axis
rows keep w = 0 and the translation row keeps w = 1), and matrix_from_qvv
establishes it on construction. -/
theorem matrix_mul_affine_invariant (L R : Matrix3x4) (q : Quat) (t s : Vector4)
    (hLx : L.x_axis.w = 0) (hLy : L.y_axis.w = 0) (hLz : L.z_axis.w = 0)
    (hLw : L.w_axis.w = 1)
    (hRx : R.x_axis.w = 0) (hRy : R.y_axis.w = 0) (hRz : R.z_axis.w = 0) (hRw : R.w_axis.w = 1) :
    ((matrix_mul3x4 L R).x_axis.w = 0 ∧ (matrix_mul3x4 L R).y_axis.w = 0
      ∧ (matrix_mul3x4 L R).z_axis.w = 0 ∧ (matrix_mul3x4 L R).w_axis.w = 1)
    ∧ ((matrix_from_qvv q t s).x_axis.w = 0 ∧ (matrix_from_qvv q t s).y_axis.w = 0
      ∧ (matrix_from_qvv q t s).z_axis.w = 0 ∧ (matrix_from_qvv q t s).w_axis.w = 1) := by
  refine ⟨⟨?_, ?_, ?_, ?_⟩, ?_, ?_, ?_, ?_⟩ <;>
    simp [matrix_mul3x4, matrix_from_qvv, vector_mul_add, vector_mul, vector_add, vector_mul_s,
      vector_dup_x, vector_dup_y, vector_dup_z, hLx, hLy, hLz, hLw, hRx, hRy, hRz, hRw]

/-- Witness for C6 at concrete affine matrices. -/
theorem matrix_mul_affine_invariant_witness :
    ((matrix_mul3x4 (matrix_from_qvv quat_identity ⟨1, 2, 3, 0⟩ ⟨2, -3, 5, 0⟩)
        (matrix_from_qvv quat_identity ⟨-4, 0, 7, 0⟩ ⟨1, 1, 1, 0⟩)).x_axis.w = 0
      ∧ (matrix_mul3x4 (matrix_from_qvv quat_identity ⟨1, 2, 3, 0⟩ ⟨2, -3, 5, 0⟩)
        (matrix_from_qvv quat_identity ⟨-4, 0, 7, 0⟩ ⟨1, 1, 1, 0⟩)).y_axis.w = 0
      ∧ (matrix_mul3x4 (matrix_from_qvv quat_identity ⟨1, 2, 3, 0⟩ ⟨2, -3, 5, 0⟩)
        (matrix_from_qvv quat_identity ⟨-4, 0, 7, 0⟩ ⟨1, 1, 1, 0⟩)).z_axis.w = 0
      ∧ (matrix_mul3x4 (matrix_from_qvv quat_identity ⟨1, 2, 3, 0⟩ ⟨2, -3, 5, 0⟩)
        (matrix_from_qvv quat_identity ⟨-4, 0, 7, 0⟩ ⟨1, 1, 1, 0⟩)).w_axis.w = 1)
    ∧ ((matrix_from_qvv quat_identity ⟨9, 9, 9, 0⟩ ⟨1, 0, -2, 0⟩).x_axis.w = 0
      ∧ (matrix_from_qvv quat_identity ⟨9, 9, 9, 0⟩ ⟨1, 0, -2, 0⟩).y_axis.w = 0
      ∧ (matrix_from_qvv quat_identity ⟨9, 9, 9, 0⟩ ⟨1, 0, -2, 0⟩).z_axis.w = 0
      ∧ (matrix_from_qvv quat_identity ⟨9, 9, 9, 0⟩ ⟨1, 0, -2, 0⟩).w_axis.w = 1) :=
  matrix_mul_affine_invariant
    (matrix_from_qvv quat_identity ⟨1, 2, 3, 0⟩ ⟨2, -3, 5, 0⟩)
    (matrix_from_qvv quat_identity ⟨-4, 0, 7, 0⟩ ⟨1, 1, 1, 0⟩)
    quat_identity ⟨9, 9, 9, 0⟩ ⟨1, 0, -2, 0⟩
    (by norm_num [matrix_from_qvv, quat_identity, vector_mul_s])
    (by norm_num [matrix_from_qvv, quat_identity, vector_mul_s])
    (by norm_num [matrix_from_qvv, quat_identity, vector_mul_s])
    (by norm_num [matrix_from_qvv, quat_identity, vector_mul_s])
    (by norm_num [matrix_from_qvv, quat_identity, vector_mul_s])
    (by norm_num [matrix_from_qvv, quat_identity, vector_mul_s])
    (by norm_num [matrix_from_qvv, quat_identity, vector_mul_s])
    (by norm_num [matrix_from_qvv, quat_identity, vector_mul_s])

/-- Claim C7. vector_normalize3 returns the fallback unchanged when the
squared 3D length is below the threshold, and otherwise returns the input
scaled by the reciprocal square root of its squared 3D length. -/
theorem vector_normalize3_spec (rsqrt : ℚ → ℚ) (v f : Vector4) (t : ℚ) :
    (vector_length_squared3 v < t → vector_normalize3 rsqrt v f t = f)
      ∧ (t ≤ vector_length_squared3 v →
          vector_normalize3 rsqrt v f t
            = vector_mul_s v (rsqrt (vector_length_squared3 v))) := by
  constructor <;> intro h
  · simp [vector_normalize3, not_le.mpr h]
  · simp [vector_normalize3, h]

/-- Witness for C7 on both branches at concrete inputs. -/
theorem vector_normalize3_spec_witness :
    (vector_normalize3 (fun l => 1 / l) ⟨0, 0, 0, 7⟩ ⟨1, 2, 3, 4⟩ (1 / 100000000) = ⟨1, 2, 3, 4⟩)
      ∧ (vector_normalize3 (fun l => 1 / l) ⟨3, 0, 4, 0⟩ ⟨1, 2, 3, 4⟩ (1 / 100000000)
          = vector_mul_s ⟨3, 0, 4, 0⟩ (1 / 25)) :=
  by
  constructor
  · exact (vector_normalize3_spec (fun l => 1 / l) ⟨0, 0, 0, 7⟩ ⟨1, 2, 3, 4⟩ (1 / 100000000)).1
      (by norm_num [vector_length_squared3, vector_dot3])
  · have h := (vector_normalize3_spec (fun l => 1 / l) ⟨3, 0, 4, 0⟩ ⟨1, 2, 3, 4⟩
      (1 / 100000000)).2 (by norm_num [vector_length_squared3, vector_dot3])
    rw [show ((1 : ℚ) / 25) = 1 / vector_length_squared3 ⟨3, 0, 4, 0⟩ by
      norm_num [vector_length_squared3, vector_dot3]]
    exact h

/-- Claim C9. vqm_set_scale replaces only the diagonal lanes of the
scale/shear rows with the scale's lanes, leaving the rotation, the
translation, and every off-diagonal lane unchanged, and vqm_get_scale then
reads those scale lanes back. -/
theorem vqm_set_scale_spec (T : VQM) (s : Vector4) :
    vqm_set_scale T s
        = ⟨VQM.rot T, VQM.translation T,
           ⟨s.x, (VQM.x_axis T).y, (VQM.x_axis T).z, (VQM.x_axis T).w⟩,
           ⟨(VQM.y_axis T).x, s.y, (VQM.y_axis T).z, (VQM.y_axis T).w⟩,
           ⟨(VQM.z_axis T).x, (VQM.z_axis T).y, s.z, (VQM.z_axis T).w⟩⟩
      ∧ (vqm_get_scale (vqm_set_scale T s)).x = s.x
      ∧ (vqm_get_scale (vqm_set_scale T s)).y = s.y
      ∧ (vqm_get_scale (vqm_set_scale T s)).z = s.z :=
  ⟨rfl, rfl, rfl, rfl⟩

/-- Claim C3 (amended). For every VQM with unit rotation and non-singular
scale/shear block, multiplying by the inverse on the right gives exactly
the identity VQM in every lane; multiplying on the left gives the identity
in every lane except the translation's w lane, which carries the input
translation's w lane (so it is the identity exactly when that lane is 0,
as vqm_set produces). -/
theorem vqm_inverse_mul_identity (T : VQM) (hq : quat_norm_sq (VQM.rot T) = 1)
    (hdet : matrix_det3 (matrix_set3 (VQM.x_axis T) (VQM.y_axis T) (VQM.z_axis T)) ≠ 0) :
    vqm_mul T (vqm_inverse T) = vqm_identity_d
      ∧ vqm_mul (vqm_inverse T) T
          = ⟨quat_identity, ⟨0, 0, 0, (VQM.translation T).w⟩,
             ⟨1, 0, 0, 0⟩, ⟨0, 1, 0, 0⟩, ⟨0, 0, 1, 0⟩⟩ := by
  constructor
  · refine VQM.ext ?_ ?_ ?_ ?_ ?_
    · show quat_hamilton_mul (quat_conjugate (VQM.rot T)) (VQM.rot T) = quat_identity
      rw [conj_hmul_self, hq]
      rfl
    · rw [vqm_mul_trans_def, vqm_inverse_rot_def, vqm_inverse_trans_def, vqm_inverse_mtx_def,
        ← mmv3_mmv3, mmv3_rotated_rows, set3_eta, mmv3_rotated_rows, set3_eta, mmv3_identity3,
        qmv3_pure_drop, qmv3_conj_right_unit _ _ hq, qmv3_neg, mmv3_neg]
      have hw : (matrix_mul_vector3x3
          (quat_mul_vector3 (VQM.translation T) (quat_conjugate (VQM.rot T)))
          (matrix_inverse3
            (matrix_set3 (VQM.x_axis T) (VQM.y_axis T) (VQM.z_axis T)))).w = 0 :=
        mmv3_inv_w _ _
      ext <;> simp [vector_add, vector_neg, vqm_identity_d, vector_zero, hw]
    · rw [vqm_mul_row_x, mmv3_rotated_rows, vqm_inverse_mtx_def,
        ← mmv3_mmv3, mmv3_rotated_rows, set3_eta, mmv3_rotated_rows, set3_eta, mmv3_identity3,
        qmv3_pure_drop, qmv3_conj_right_unit _ _ hq, qmv3_conj_right_unit _ _ hq,
        mmv3_congr_w (VQM.x_axis T).x (VQM.x_axis T).y (VQM.x_axis T).z 0 (VQM.x_axis T).w,
        vec_eta, row_x_mul_inv3 _ _ _ hdet]
      rfl
    · rw [vqm_mul_row_y, mmv3_rotated_rows, vqm_inverse_mtx_def,
        ← mmv3_mmv3, mmv3_rotated_rows, set3_eta, mmv3_rotated_rows, set3_eta, mmv3_identity3,
        qmv3_pure_drop, qmv3_conj_right_unit _ _ hq, qmv3_conj_right_unit _ _ hq,
        mmv3_congr_w (VQM.y_axis T).x (VQM.y_axis T).y (VQM.y_axis T).z 0 (VQM.y_axis T).w,
        vec_eta, row_y_mul_inv3 _ _ _ hdet]
      rfl
    · rw [vqm_mul_row_z, mmv3_rotated_rows, vqm_inverse_mtx_def,
        ← mmv3_mmv3, mmv3_rotated_rows, set3_eta, mmv3_rotated_rows, set3_eta, mmv3_identity3,
        qmv3_pure_drop, qmv3_conj_right_unit _ _ hq, qmv3_conj_right_unit _ _ hq,
        mmv3_congr_w (VQM.z_axis T).x (VQM.z_axis T).y (VQM.z_axis T).z 0 (VQM.z_axis T).w,
        vec_eta, row_z_mul_inv3 _ _ _ hdet]
      rfl
  · refine VQM.ext ?_ ?_ ?_ ?_ ?_
    · show quat_hamilton_mul (VQM.rot T) (quat_conjugate (VQM.rot T)) = quat_identity
      rw [hmul_conj_self, hq]
      rfl
    · rw [vqm_mul_trans_def, vqm_inverse_trans_def,
        qmv3_neg, mmv3_neg, mmv3_neg, qmv3_neg]
      have hxyz : quat_mul_vector3
          (matrix_mul_vector3x3
            (matrix_mul_vector3x3
              (quat_mul_vector3 (VQM.translation T) (quat_conjugate (VQM.rot T)))
              (matrix_inverse3 (matrix_set3 (VQM.x_axis T) (VQM.y_axis T) (VQM.z_axis T))))
            (matrix_set3 (VQM.x_axis T) (VQM.y_axis T) (VQM.z_axis T)))
          (VQM.rot T)
          = quat_mul_vector3
              (quat_mul_vector3 (VQM.translation T) (quat_conjugate (VQM.rot T)))
              (VQM.rot T) :=
        qmv3_congr_xyz _ _ _
          (mmv3_inv_then_M_x _ hdet _) (mmv3_inv_then_M_y _ hdet _) (mmv3_inv_then_M_z _ hdet _)
      rw [hxyz, qmv3_conj_left_unit _ _ hq]
      ext <;> simp [vector_add, vector_neg]
    · rw [vqm_mul_row_x, vqm_inverse_rot_def, conj_conj, vqm_inverse_row_x_red,
        qmv3_conj_right_unit _ _ hq, mmv3_rotated_rows]
      have hxyz : quat_mul_vector3
          (matrix_mul_vector3x3
            (⟨(matrix_mul_vector3x3
                (quat_mul_vector3 matrix_identity3.x_axis (quat_conjugate (VQM.rot T)))
                (matrix_inverse3 (matrix_set3 (VQM.x_axis T) (VQM.y_axis T) (VQM.z_axis T)))).x,
              (matrix_mul_vector3x3
                (quat_mul_vector3 matrix_identity3.x_axis (quat_conjugate (VQM.rot T)))
                (matrix_inverse3 (matrix_set3 (VQM.x_axis T) (VQM.y_axis T) (VQM.z_axis T)))).y,
              (matrix_mul_vector3x3
                (quat_mul_vector3 matrix_identity3.x_axis (quat_conjugate (VQM.rot T)))
                (matrix_inverse3 (matrix_set3 (VQM.x_axis T) (VQM.y_axis T) (VQM.z_axis T)))).z,
              0⟩ : Vector4)
            (matrix_set3 (VQM.x_axis T) (VQM.y_axis T) (VQM.z_axis T)))
          (VQM.rot T)
          = quat_mul_vector3
              (quat_mul_vector3 matrix_identity3.x_axis (quat_conjugate (VQM.rot T)))
              (VQM.rot T) := by
        rw [mmv3_congr_w _ _ _ 0
          (matrix_mul_vector3x3
            (quat_mul_vector3 matrix_identity3.x_axis (quat_conjugate (VQM.rot T)))
            (matrix_inverse3 (matrix_set3 (VQM.x_axis T) (VQM.y_axis T) (VQM.z_axis T)))).w,
          vec_eta]
        exact qmv3_congr_xyz _ _ _
          (mmv3_inv_then_M_x _ hdet _) (mmv3_inv_then_M_y _ hdet _) (mmv3_inv_then_M_z _ hdet _)
      rw [hxyz, qmv3_conj_left_unit _ _ hq]
      rfl
    · rw [vqm_mul_row_y, vqm_inverse_rot_def, conj_conj, vqm_inverse_row_y_red,
        qmv3_conj_right_unit _ _ hq, mmv3_rotated_rows]
      have hxyz : quat_mul_vector3
          (matrix_mul_vector3x3
            (⟨(matrix_mul_vector3x3
                (quat_mul_vector3 matrix_identity3.y_axis (quat_conjugate (VQM.rot T)))
                (matrix_inverse3 (matrix_set3 (VQM.x_axis T) (VQM.y_axis T) (VQM.z_axis T)))).x,
              (matrix_mul_vector3x3
                (quat_mul_vector3 matrix_identity3.y_axis (quat_conjugate (VQM.rot T)))
                (matrix_inverse3 (matrix_set3 (VQM.x_axis T) (VQM.y_axis T) (VQM.z_axis T)))).y,
              (matrix_mul_vector3x3
                (quat_mul_vector3 matrix_identity3.y_axis (quat_conjugate (VQM.rot T)))
                (matrix_inverse3 (matrix_set3 (VQM.x_axis T) (VQM.y_axis T) (VQM.z_axis T)))).z,
              0⟩ : Vector4)
            (matrix_set3 (VQM.x_axis T) (VQM.y_axis T) (VQM.z_axis T)))
          (VQM.rot T)
          = quat_mul_vector3
              (quat_mul_vector3 matrix_identity3.y_axis (quat_conjugate (VQM.rot T)))
              (VQM.rot T) := by
        rw [mmv3_congr_w _ _ _ 0
          (matrix_mul_vector3x3
            (quat_mul_vector3 matrix_identity3.y_axis (quat_conjugate (VQM.rot T)))
            (matrix_inverse3 (matrix_set3 (VQM.x_axis T) (VQM.y_axis T) (VQM.z_axis T)))).w,
          vec_eta]
        exact qmv3_congr_xyz _ _ _
          (mmv3_inv_then_M_x _ hdet _) (mmv3_inv_then_M_y _ hdet _) (mmv3_inv_then_M_z _ hdet _)
      rw [hxyz, qmv3_conj_left_unit _ _ hq]
      rfl
    · rw [vqm_mul_row_z, vqm_inverse_rot_def, conj_conj, vqm_inverse_row_z_red,
        qmv3_conj_right_unit _ _ hq, mmv3_rotated_rows]
      have hxyz : quat_mul_vector3
          (matrix_mul_vector3x3
            (⟨(matrix_mul_vector3x3
                (quat_mul_vector3 matrix_identity3.z_axis (quat_conjugate (VQM.rot T)))
                (matrix_inverse3 (matrix_set3 (VQM.x_axis T) (VQM.y_axis T) (VQM.z_axis T)))).x,
              (matrix_mul_vector3x3
                (quat_mul_vector3 matrix_identity3.z_axis (quat_conjugate (VQM.rot T)))
                (matrix_inverse3 (matrix_set3 (VQM.x_axis T) (VQM.y_axis T) (VQM.z_axis T)))).y,
              (matrix_mul_vector3x3
                (quat_mul_vector3 matrix_identity3.z_axis (quat_conjugate (VQM.rot T)))
                (matrix_inverse3 (matrix_set3 (VQM.x_axis T) (VQM.y_axis T) (VQM.z_axis T)))).z,
              0⟩ : Vector4)
            (matrix_set3 (VQM.x_axis T) (VQM.y_axis T) (VQM.z_axis T)))
          (VQM.rot T)
          = quat_mul_vector3
              (quat_mul_vector3 matrix_identity3.z_axis (quat_conjugate (VQM.rot T)))
              (VQM.rot T) := by
        rw [mmv3_congr_w _ _ _ 0
          (matrix_mul_vector3x3
            (quat_mul_vector3 matrix_identity3.z_axis (quat_conjugate (VQM.rot T)))
            (matrix_inverse3 (matrix_set3 (VQM.x_axis T) (VQM.y_axis T) (VQM.z_axis T)))).w,
          vec_eta]
        exact qmv3_congr_xyz _ _ _
          (mmv3_inv_then_M_x _ hdet _) (mmv3_inv_then_M_y _ hdet _) (mmv3_inv_then_M_z _ hdet _)
      rw [hxyz, qmv3_conj_left_unit _ _ hq]
      rfl

/-- Counterexample to Claim C3 as stated: a transform with identity
rotation, identity (hence non-singular) scale/shear, and translation
(1, 2, 3, 5) has vqm_mul(vqm_inverse(T), T) differing from the identity
VQM in the translation's 4th lane by exactly 5, far beyond the stated
thresholds. -/
theorem vqm_inverse_mul_identity_cex :
    quat_norm_sq
        (VQM.rot (⟨quat_identity, ⟨1, 2, 3, 5⟩,
          ⟨1, 0, 0, 0⟩, ⟨0, 1, 0, 0⟩, ⟨0, 0, 1, 0⟩⟩ : VQM)) = 1
      ∧ matrix_det3 (matrix_set3 ⟨1, 0, 0, 0⟩ ⟨0, 1, 0, 0⟩ ⟨0, 0, 1, 0⟩) ≠ 0
      ∧ vqm_mul
          (vqm_inverse ⟨quat_identity, ⟨1, 2, 3, 5⟩,
            ⟨1, 0, 0, 0⟩, ⟨0, 1, 0, 0⟩, ⟨0, 0, 1, 0⟩⟩)
          ⟨quat_identity, ⟨1, 2, 3, 5⟩, ⟨1, 0, 0, 0⟩, ⟨0, 1, 0, 0⟩, ⟨0, 0, 1, 0⟩⟩
          ≠ vqm_identity_d
      ∧ (VQM.translation (vqm_mul
          (vqm_inverse ⟨quat_identity, ⟨1, 2, 3, 5⟩,
            ⟨1, 0, 0, 0⟩, ⟨0, 1, 0, 0⟩, ⟨0, 0, 1, 0⟩⟩)
          ⟨quat_identity, ⟨1, 2, 3, 5⟩, ⟨1, 0, 0, 0⟩, ⟨0, 1, 0, 0⟩, ⟨0, 0, 1, 0⟩⟩)).w = 5
      ∧ (VQM.translation vqm_identity_d).w = 0 := by
  refine ⟨by norm_num [quat_norm_sq, quat_identity],
    by norm_num [matrix_det3, matrix_set3], fun h => ?_, ?_, rfl⟩
  · have hw := congrArg (fun S => Vector4.w (VQM.translation S)) h
    norm_num [vqm_mul, vqm_inverse, vqm_identity_d, quat_identity, quat_mul, quat_conjugate,
      quat_mul_vector3, quat_hamilton_mul, quat_to_pure, matrix_set3, matrix_identity3,
      matrix_mul3x3, matrix_mul_vector3x3, matrix_inverse3, matrix_det3, vector_add,
      vector_neg, vector_mul, vector_mul_add, vector_zero,
      vector_dup_x, vector_dup_y, vector_dup_z] at hw
  · norm_num [vqm_mul, vqm_inverse, quat_identity, quat_mul, quat_conjugate,
      quat_mul_vector3, quat_hamilton_mul, quat_to_pure, matrix_set3, matrix_identity3,
      matrix_mul3x3, matrix_mul_vector3x3, matrix_inverse3, matrix_det3, vector_add,
      vector_neg, vector_mul, vector_mul_add,
      vector_dup_x, vector_dup_y, vector_dup_z]

/-- Witness for amended C3 at a concrete transform with a 120-degree unit
rotation, negative scale on one axis, and translation with w lane 0. -/
theorem vqm_inverse_mul_identity_witness :
    quat_norm_sq
        (VQM.rot (⟨⟨1 / 2, 1 / 2, 1 / 2, 1 / 2⟩, ⟨1, 2, 3, 0⟩,
          ⟨2, 0, 0, 0⟩, ⟨0, -3, 0, 0⟩, ⟨0, 0, 5, 0⟩⟩ : VQM)) = 1
      ∧ matrix_det3 (matrix_set3 ⟨2, 0, 0, 0⟩ ⟨0, -3, 0, 0⟩ ⟨0, 0, 5, 0⟩) ≠ 0
      ∧ vqm_mul
          ⟨⟨1 / 2, 1 / 2, 1 / 2, 1 / 2⟩, ⟨1, 2, 3, 0⟩,
            ⟨2, 0, 0, 0⟩, ⟨0, -3, 0, 0⟩, ⟨0, 0, 5, 0⟩⟩
          (vqm_inverse ⟨⟨1 / 2, 1 / 2, 1 / 2, 1 / 2⟩, ⟨1, 2, 3, 0⟩,
            ⟨2, 0, 0, 0⟩, ⟨0, -3, 0, 0⟩, ⟨0, 0, 5, 0⟩⟩) = vqm_identity_d
      ∧ vqm_mul
          (vqm_inverse ⟨⟨1 / 2, 1 / 2, 1 / 2, 1 / 2⟩, ⟨1, 2, 3, 0⟩,
            ⟨2, 0, 0, 0⟩, ⟨0, -3, 0, 0⟩, ⟨0, 0, 5, 0⟩⟩)
          ⟨⟨1 / 2, 1 / 2, 1 / 2, 1 / 2⟩, ⟨1, 2, 3, 0⟩,
            ⟨2, 0, 0, 0⟩, ⟨0, -3, 0, 0⟩, ⟨0, 0, 5, 0⟩⟩
          = ⟨quat_identity, ⟨0, 0, 0, 0⟩, ⟨1, 0, 0, 0⟩, ⟨0, 1, 0, 0⟩, ⟨0, 0, 1, 0⟩⟩ := by
  have h := vqm_inverse_mul_identity
    ⟨⟨1 / 2, 1 / 2, 1 / 2, 1 / 2⟩, ⟨1, 2, 3, 0⟩, ⟨2, 0, 0, 0⟩, ⟨0, -3, 0, 0⟩, ⟨0, 0, 5, 0⟩⟩
    (by norm_num [quat_norm_sq]) (by norm_num [matrix_det3, matrix_set3])
  exact ⟨by norm_num [quat_norm_sq], by norm_num [matrix_det3, matrix_set3], h.1, h.2⟩

end RTM
